import Mathlib

/-!
Shallow embedding of `src/app.py` (`thoth-graph-estimator`), centered on the
score-engine function `_fill_graph_score` together with the data it
manipulates: the persisted `Package` rows of the score store and the
transient `SubGraphEntity` work items.

Modelling conventions:
* The SQLAlchemy `Package` table is a list of `(package_name, record)` pairs;
  `session.query(Package).filter(Package.package_name == n).first()` is lookup
  of the first pair with that name, and assigning `entry.subgraph_size`
  followed by `session.commit()` is a functional update of that pair.
* Nullable columns become `Option`: `version_count : Option Nat`,
  `subgraph_size : Option Rat`.  Python floats are modelled as exact
  rationals; every value the engine ever computes here is a product of
  natural numbers seeded by `1.0`, so no rounding behaviour is modelled.
* The external `GraphDatabase` is a structure giving the enumeration order of
  `get_python_package_version_names_all(distinct=True)` and, per package, the
  dependency names of `get_depends_on_package_names`.  Python `set` objects
  (`to_visit`, `subgraphs_seen`) become lists recording one concrete
  iteration order; set difference becomes `List.filter`.
* The `while subgraphs:` drain loop need not terminate (dependency cycles),
  so it is given explicit fuel; running it with fuel `n` yields exactly the
  state after `n` pops, and "a full run" is a run whose final queue is empty.
* The one uncaught exception the loop can raise — `entry.subgraph_size *
  entry.version_count` with `version_count = None` is a Python `TypeError` —
  is modelled by `Option`: `none` is an exception escaping the loop.
-/

set_option autoImplicit false

namespace GraphEstimator

abbrev PName := String

/-- One row of the `package` table: nullable `version_count` and
`subgraph_size` columns (the `id` primary key plays no role). -/
structure Package where
  version_count : Option Nat
  subgraph_size : Option Rat
  deriving Repr, DecidableEq

/-- The score store: the `package` table as an association list keyed by
`package_name`. -/
abbrev Store := List (PName × Package)

/-- `session.query(Package).filter(Package.package_name == n).first()`. -/
def storeGet : Store → PName → Option Package
  | [], _ => none
  | (m, e) :: rest, n => if m = n then some e else storeGet rest n

/-- Assigning `entry.subgraph_size = v` on the row found by `storeGet`,
followed by `session.commit()`. -/
def storeSetSize : Store → PName → Option Rat → Store
  | [], _, _ => []
  | (m, e) :: rest, n, v =>
    if m = n then (m, { e with subgraph_size := v }) :: rest
    else (m, e) :: storeSetSize rest n v

/-- The persisted `subgraph_size` of package `n`, if any. -/
def getSize (s : Store) (n : PName) : Option Rat :=
  match storeGet s n with
  | none => none
  | some e => e.subgraph_size

/-- The external `GraphDatabase`, restricted to the two queries
`_fill_graph_score` makes: the (distinct) package-name enumeration and each
package's direct dependency names. -/
structure GraphSource where
  packages : List PName
  depends_on : PName → List PName

/-- `SubGraphEntity` from `src/app.py`: a transient work item.  The sets
`subgraphs_seen` and `to_visit` are lists in a concrete iteration order. -/
structure SubGraphEntity where
  subgraph_name : PName
  subgraphs_seen : List PName
  to_visit : List PName
  subgraph_size : Rat
  deriving Repr, DecidableEq

/-- One iteration of the seeding loop of `_fill_graph_score` (lines 125-137):
always append a work item; if the dependency set is empty additionally write
`subgraph_size = version_count` on an existing row (skipping a missing row);
otherwise append a second work item. -/
def seedOne (st : Store × List SubGraphEntity) (p : PName) (deps : List PName) :
    Store × List SubGraphEntity :=
  let q := st.2 ++ [⟨p, [], deps, 1⟩]
  if deps.isEmpty then
    match storeGet st.1 p with
    | none => (st.1, q)
    | some entry => (storeSetSize st.1 p (entry.version_count.map (fun k => (k : Rat))), q)
  else
    (st.1, q ++ [⟨p, [], deps, 1⟩])

/-- The full seeding pass: the first `for` loop of `_fill_graph_score`,
starting from an empty deque. -/
def seed (gs : GraphSource) (store : Store) : Store × List SubGraphEntity :=
  gs.packages.foldl (fun st p => seedOne st p (gs.depends_on p)) (store, [])

/-- Outcome of the `for package_name in subgraph.to_visit:` loop over one
popped item, carrying the mutated `subgraphs_seen` and accumulator. -/
inductive VisitResult where
  /-- `break` at a dependency with no row at all (line 146). -/
  | abandoned (seen : List PName) (acc : Rat)
  /-- `break` at a row whose `subgraph_size` is unset, after re-appending the
  item (lines 148-151). -/
  | deferred (seen : List PName) (acc : Rat)
  /-- The loop ran to completion, reaching the `for`-`else` branch. -/
  | completed (seen : List PName) (acc : Rat)
  /-- `TypeError`: folding a row with `subgraph_size` set but
  `version_count = None` (line 153). -/
  | failed
  deriving Repr, DecidableEq

/-- The dependency loop of `_fill_graph_score` (lines 142-154). -/
def processVisit (store : Store) : Rat → List PName → List PName → VisitResult
  | acc, seen, [] => .completed seen acc
  | acc, seen, dep :: rest =>
    match storeGet store dep with
    | none => .abandoned seen acc
    | some entry =>
      match entry.subgraph_size with
      | none => .deferred seen acc
      | some sz =>
        match entry.version_count with
        | none => .failed
        | some vc => processVisit store (acc * (sz * (vc : Rat))) (seen ++ [dep]) rest

/-- One iteration of the `while subgraphs:` loop body on a popped item
(lines 140-164): the dependency loop, then the `for`-`else` finalisation and
the `to_visit -= subgraphs_seen` update.  Result `none` is an uncaught
exception; `some (store, none)` drops the item; `some (store, some item)`
re-enqueues `item` at the back. -/
def drainStep (store : Store) (item : SubGraphEntity) :
    Option (Store × Option SubGraphEntity) :=
  match processVisit store item.subgraph_size item.subgraphs_seen item.to_visit with
  | .failed => none
  | .abandoned _ _ => some (store, none)
  | .deferred seen acc =>
    some (store, some ⟨item.subgraph_name, seen,
      item.to_visit.filter (fun d => decide (d ∉ seen)), acc⟩)
  | .completed _ acc =>
    match storeGet store item.subgraph_name with
    | none => some (store, none)
    | some _ => some (storeSetSize store item.subgraph_name (some acc), none)

/-- The `while subgraphs:` loop, with fuel: with fuel `n` it performs at most
`n` pops, so its result is exactly the engine state after `n` iterations (or
the final state, if the queue empties first).  `none` is an uncaught
exception escaping the loop. -/
def drain : Nat → Store → List SubGraphEntity → Option (Store × List SubGraphEntity)
  | _, store, [] => some (store, [])
  | 0, store, q => some (store, q)
  | fuel + 1, store, item :: q =>
    match drainStep store item with
    | none => none
    | some (store1, none) => drain fuel store1 q
    | some (store1, some item1) => drain fuel store1 (q ++ [item1])

/-- `_fill_graph_score`: seed, then drain.  A result `some (st, [])` is a
full run (the queue was drained to empty). -/
def fillGraphScore (fuel : Nat) (gs : GraphSource) (store : Store) :
    Option (Store × List SubGraphEntity) :=
  let st := seed gs store
  drain fuel st.1 st.2

/-- The contribution a dependency `d` makes to an accumulator when folded
against store `s`: `subgraph_size * version_count` of its row (junk value `0`
when the row is missing or incomplete — the fold never reads it then). -/
def depScore (s : Store) (d : PName) : Rat :=
  match storeGet s d with
  | none => 0
  | some e =>
    match e.subgraph_size, e.version_count with
    | some sz, some vc => sz * vc
    | _, _ => 0

/-- `d` has a row whose `subgraph_size` and `version_count` are both set:
the fold can consume it. -/
def resolvedDep (s : Store) (d : PName) : Bool :=
  match storeGet s d with
  | none => false
  | some e => e.subgraph_size.isSome && e.version_count.isSome

/-- Store well-formedness: every row with `subgraph_size` set also has
`version_count` set (the precondition making the fold total). -/
def wfStore (s : Store) : Bool :=
  s.all (fun p => !p.2.subgraph_size.isSome || p.2.version_count.isSome)

/-- Number of work items for `n` in queue `q`. -/
def countItems (q : List SubGraphEntity) (n : PName) : Nat :=
  (q.filter (fun i => decide (i.subgraph_name = n))).length

end GraphEstimator

namespace GraphEstimator

/-! ### Concrete scenarios -/

/-- Single dependency-free package `a` with a known version count. -/
def c1gs : GraphSource := ⟨["a"], fun _ => []⟩

/-- Store holding `a`'s record with `version_count = 3`, size unset. -/
def c1store : Store := [("a", ⟨some 3, none⟩)]

/-- `a` (no deps, vc 3) and `b` (depends on `a`, vc 2), enumerated `a`, `b`. -/
def c3gs : GraphSource := ⟨["a", "b"], fun p => if p = "b" then ["a"] else []⟩

/-- Records for `a` (vc 3) and `b` (vc 2), sizes unset. -/
def c3store : Store := [("a", ⟨some 3, none⟩), ("b", ⟨some 2, none⟩)]

end GraphEstimator

open GraphEstimator

/-- Claim C1: the spec says a dependency-free package with a known version
count ends a full run with `subgraph_size = version_count`.  The code does
not: the unconditional work-item append (line 127) enqueues an item with an
empty `to_visit` for the leaf too, and when that item is popped it finalizes
its untouched accumulator `1.0`, overwriting the seeded value.  Package `a`
with `version_count = 3` ends the run (queue drained to empty) with
`subgraph_size = 1 ≠ 3`. -/
theorem c1_leaf_size_overwritten_to_one :
    fillGraphScore 5 c1gs c1store = some ([("a", ⟨some 3, some 1⟩)], []) ∧
      getSize [("a", (⟨some 3, some 1⟩ : Package))] "a" = some 1 ∧ (1 : Rat) ≠ 3 := by
  refine ⟨by decide, by decide, by decide⟩

/-- Claim C3: the spec's concrete scenario expects `A.subgraph_size = 3.0`
and `B.subgraph_size = 9.0`.  The code instead produces `A = 1.0` (the
leaf's spurious work item overwrites the seeded 3.0) and then `B = 3.0`
(B's items fold the already-clobbered value `1.0 * 3`). -/
theorem c3_scenario_a_one_b_three :
    fillGraphScore 10 c3gs c3store =
      some ([("a", ⟨some 3, some 1⟩), ("b", ⟨some 2, some 3⟩)], []) ∧
      (1 : Rat) ≠ 3 ∧ (3 : Rat) ≠ 9 := by
  refine ⟨?_, by decide, by decide⟩
  simp +decide [fillGraphScore, seed, seedOne, drain, drainStep, processVisit, storeGet,
    storeSetSize, c3gs, c3store]

/-- Claim C4: the spec says `subgraph_size`, once set, is never changed to a
different value within one run.  In the code the seeding pass writes
`a.subgraph_size = 3` and a later drain step of the same run overwrites it
with `1 ≠ 3`. -/
theorem c4_size_rewritten_with_different_value :
    getSize (seed c1gs c1store).1 "a" = some 3 ∧
      fillGraphScore 5 c1gs c1store = some ([("a", ⟨some 3, some 1⟩)], []) ∧
      (3 : Rat) ≠ 1 := by
  refine ⟨by decide, by decide, by decide⟩

/-- Claim C5: the spec says seeding enqueues zero work items for a
dependency-free package and exactly one for a package with dependencies.
The code's unconditional append (line 127) plus the duplicate append in the
`else` branch (line 137) instead enqueue one item for the dependency-free
`a` and two items for `b`. -/
theorem c5_seed_enqueue_counts :
    countItems (seed c3gs c3store).2 "a" = 1 ∧ countItems (seed c3gs c3store).2 "b" = 2 ∧
      (1 : Nat) ≠ 0 ∧ (2 : Nat) ≠ 1 := by
  refine ⟨by decide, by decide, by decide, by decide⟩

namespace GraphEstimator

/-! ### C2 counterexample scenario: `b` depends on `a` and `c`; `a` is a leaf
with version count 3; `c` depends on the leaf `x` (version count 2) and has
version count 4; enumeration order `b`, `a`, `c`, `x`; `b` iterates its
pending set as `a` then `c`. -/

def c2gs : GraphSource :=
  ⟨["b", "a", "c", "x"],
    fun p => if p = "b" then ["a", "c"] else if p = "c" then ["x"] else []⟩

def c2store : Store :=
  [("a", ⟨some 3, none⟩), ("b", ⟨some 7, none⟩), ("c", ⟨some 4, none⟩), ("x", ⟨some 2, none⟩)]

/-- The final store of a full run on the C2 scenario. -/
def c2final : Store :=
  [("a", ⟨some 3, some 1⟩), ("b", ⟨some 7, some 144⟩),
   ("c", ⟨some 4, some 4⟩), ("x", ⟨some 2, some 1⟩)]

/-! ### C7 scenario: `b` depends on `c` and `a` (iterated `c` then `a`);
`c` depends on the leaf `l`; `a` and `l` are leaves; enumeration order
`b`, `c`, `a`, `l`. -/

def c7gs : GraphSource :=
  ⟨["b", "c", "a", "l"],
    fun p => if p = "b" then ["c", "a"] else if p = "c" then ["l"] else []⟩

def c7store : Store :=
  [("b", ⟨some 7, none⟩), ("c", ⟨some 5, none⟩), ("a", ⟨some 3, none⟩), ("l", ⟨some 2, none⟩)]

/-- The store after the first full run on the C7 scenario. -/
def c7mid : Store :=
  [("b", ⟨some 7, some 60⟩), ("c", ⟨some 5, some 4⟩),
   ("a", ⟨some 3, some 1⟩), ("l", ⟨some 2, some 1⟩)]

/-- The store after the second full run on the C7 scenario. -/
def c7final : Store :=
  [("b", ⟨some 7, some 180⟩), ("c", ⟨some 5, some 4⟩),
   ("a", ⟨some 3, some 1⟩), ("l", ⟨some 2, some 1⟩)]

end GraphEstimator

/-- Claim C2, counterexample: the claim reads the dependency factors at the
time the work item finalizes.  In the C2 scenario `b`'s item folds `a` at
size 3 in its first pass, is deferred on `c`, and finalizes only after `a`'s
spurious leaf item has overwritten `a`'s size with 1: the persisted value is
`(3*3)*(4*4) = 144`, while the finalize-time product over `b`'s direct
dependencies is `(1*3)*(4*4) = 48` (no store write follows `b`'s
finalisation, so the finalize-time factors are those of the final store).
Both dependencies are resolved at finalize time, so the claim's hypothesis
holds, yet `144 ≠ 48`. -/
theorem c2_finalize_time_product_fails :
    fillGraphScore 20 c2gs c2store = some (c2final, []) ∧
      getSize c2final "b" = some 144 ∧
      resolvedDep c2final "a" = true ∧ resolvedDep c2final "c" = true ∧
      depScore c2final "a" * depScore c2final "c" = 48 ∧ (144 : Rat) ≠ 48 := by
  refine ⟨?_, by decide, by decide, by decide, ?_, by decide⟩
  · simp +decide [fillGraphScore, seed, seedOne, drain, drainStep, processVisit, storeGet,
      storeSetSize, c2gs, c2store, c2final]
    norm_num
  · simp +decide [depScore, storeGet, c2final]
    norm_num

/-- Claim C7: the spec says a second run over the store left by a completed
first run re-persists every already-set score unchanged.  In the C7 scenario
the first run persists `b = 60` (`b` folds `c` only after `c` finalized, and
folds `a` after `a` was clobbered to 1), but the second run starts with `c`
already set, folds it immediately — before `a`'s seeded value 3 is clobbered
again — and persists `b = 180 ≠ 60`. -/
theorem c7_second_run_changes_score :
    fillGraphScore 30 c7gs c7store = some (c7mid, []) ∧ getSize c7mid "b" = some 60 ∧
      fillGraphScore 30 c7gs c7mid = some (c7final, []) ∧ getSize c7final "b" = some 180 ∧
      (60 : Rat) ≠ 180 := by
  refine ⟨?_, by decide, ?_, by decide, by decide⟩
  · simp +decide [fillGraphScore, seed, seedOne, drain, drainStep, processVisit, storeGet,
      storeSetSize, c7gs, c7store, c7mid]
    norm_num
  · simp +decide [fillGraphScore, seed, seedOne, drain, drainStep, processVisit, storeGet,
      storeSetSize, c7gs, c7mid, c7final]
    norm_num

namespace GraphEstimator

/-! ### General lemmas about the dependency fold -/

/-- In a well-formed store, a row with `subgraph_size` set has a
`version_count`. -/
theorem wfStore_vc : ∀ (s : Store), wfStore s = true →
    ∀ (n : PName) (e : Package), storeGet s n = some e →
      e.subgraph_size.isSome = true → e.version_count.isSome = true := by
  intro s
  induction s with
  | nil => intro _ n e h _; cases h
  | cons hd rest ih =>
    intro hw n e hget hsz
    obtain ⟨m, pe⟩ := hd
    rw [wfStore, List.all_cons, Bool.and_eq_true] at hw
    obtain ⟨h1, h2⟩ := hw
    rw [storeGet] at hget
    by_cases hmn : m = n
    · rw [if_pos hmn] at hget
      injection hget with he
      subst he
      simp only [hsz, Bool.not_true, Bool.false_or] at h1
      exact h1
    · rw [if_neg hmn] at hget
      exact ih h2 n e hget hsz

/-- If every dependency in the pending list is resolved in the store, the
dependency loop completes, and the accumulator picks up exactly one factor
`subgraph_size * version_count` per dependency. -/
theorem processVisit_resolved (store : Store) :
    ∀ (deps : List PName) (acc : Rat) (seen : List PName),
      (∀ d ∈ deps, resolvedDep store d = true) →
      processVisit store acc seen deps =
        .completed (seen ++ deps) (acc * (deps.map (depScore store)).prod) := by
  intro deps
  induction deps with
  | nil => intro acc seen _; simp [processVisit]
  | cons dep rest ih =>
    intro acc seen h
    have hd := h dep (List.mem_cons_self dep rest)
    rw [resolvedDep] at hd
    cases hget : storeGet store dep with
    | none => rw [hget] at hd; cases hd
    | some e =>
      rw [hget, Bool.and_eq_true] at hd
      obtain ⟨hsz, hvc⟩ := hd
      obtain ⟨sz, hsz⟩ := Option.isSome_iff_exists.mp hsz
      obtain ⟨vc, hvc⟩ := Option.isSome_iff_exists.mp hvc
      have hds : depScore store dep = sz * (vc : Rat) := by
        simp [depScore, hget, hsz, hvc]
      simp only [processVisit, hget, hsz, hvc]
      rw [ih (acc * (sz * (vc : Rat))) (seen ++ [dep])
        (fun d hdm => h d (List.mem_cons_of_mem _ hdm))]
      congr 1
      · simp
      · rw [List.map_cons, List.prod_cons, hds]
        ring

/-- A work item with a fresh accumulator whose whole pending list is resolved
finalizes in one pass, persisting the product of the per-dependency factors
read from the store during that pass. -/
theorem drainStep_resolved (store : Store) (name : PName) (deps : List PName)
    (e : Package) (hres : ∀ d ∈ deps, resolvedDep store d = true)
    (hsub : storeGet store name = some e) :
    drainStep store ⟨name, [], deps, 1⟩ =
      some (storeSetSize store name (some ((deps.map (depScore store)).prod)), none) := by
  simp only [drainStep]
  rw [processVisit_resolved store deps 1 [] hres]
  simp [hsub]

end GraphEstimator

/-- Claim C2, amended: for a work item that folds its whole direct dependency
set in a single pass (fresh accumulator `1.0`, nothing previously folded), if
every direct dependency has a record with `subgraph_size` and `version_count`
set, the persisted `subgraph_size` equals the product, over the direct
dependencies `d`, of `size(d) * version_count(d)` as read from the store
during that pass (the accumulator starts at `1.0` and picks up one factor
per dependency).  The unamended finalize-time reading fails when the item
spans several passes and a factor is rewritten in between (see the
counterexample). -/
theorem c2_single_pass_fold_product (store : GraphEstimator.Store)
    (name : GraphEstimator.PName) (deps : List GraphEstimator.PName)
    (e : GraphEstimator.Package)
    (hres : ∀ d ∈ deps, GraphEstimator.resolvedDep store d = true)
    (hsub : GraphEstimator.storeGet store name = some e) :
    GraphEstimator.drainStep store ⟨name, [], deps, 1⟩ =
      some (GraphEstimator.storeSetSize store name
        (some ((deps.map (GraphEstimator.depScore store)).prod)), none) :=
  GraphEstimator.drainStep_resolved store name deps e hres hsub

namespace GraphEstimator

/-- Store for the C2 witness: `a` resolved, `b` present but unscored. -/
def c2wStore : Store := [("a", ⟨some 3, some 2⟩), ("b", ⟨some 5, none⟩)]

end GraphEstimator

/-- Witness for C2's amended theorem at a concrete input: dependency `a` is
resolved (size 2, version count 3) and the subject `b` persists `2 * 3`. -/
theorem c2_single_pass_fold_product_check :
    (∀ d ∈ ["a"], GraphEstimator.resolvedDep GraphEstimator.c2wStore d = true) ∧
      GraphEstimator.drainStep GraphEstimator.c2wStore ⟨"b", [], ["a"], 1⟩ =
        some (GraphEstimator.storeSetSize GraphEstimator.c2wStore "b"
          (some ((["a"].map (GraphEstimator.depScore GraphEstimator.c2wStore)).prod)), none) :=
  ⟨by decide, c2_single_pass_fold_product GraphEstimator.c2wStore "b" ["a"]
    ⟨some 5, none⟩ (by decide) (by decide)⟩

/-- Claim C9: the persisted value a finalizing work item writes does not
depend on the order in which its pending dependencies are iterated: for two
iteration orders of the same pending set over the same store, the drain step
produces identical results (sizes are modelled as exact rationals, whose
product is commutative).  -/
theorem c9_fold_order_irrelevant (store : GraphEstimator.Store)
    (name : GraphEstimator.PName) (deps1 deps2 : List GraphEstimator.PName)
    (e : GraphEstimator.Package) (hperm : List.Perm deps1 deps2)
    (hres : ∀ d ∈ deps1, GraphEstimator.resolvedDep store d = true)
    (hsub : GraphEstimator.storeGet store name = some e) :
    GraphEstimator.drainStep store ⟨name, [], deps1, 1⟩ =
      GraphEstimator.drainStep store ⟨name, [], deps2, 1⟩ := by
  have hres2 : ∀ d ∈ deps2, GraphEstimator.resolvedDep store d = true :=
    fun d hd => hres d (hperm.mem_iff.mpr hd)
  rw [GraphEstimator.drainStep_resolved store name deps1 e hres hsub,
    GraphEstimator.drainStep_resolved store name deps2 e hres2 hsub,
    (hperm.map (GraphEstimator.depScore store)).prod_eq]

namespace GraphEstimator

/-- Store for the C9 witness: two resolved dependencies and a subject. -/
def c9wStore : Store :=
  [("a", ⟨some 2, some 3⟩), ("b", ⟨some 5, some 7⟩), ("p", ⟨some 1, none⟩)]

end GraphEstimator

/-- Witness for C9 at a concrete input: iterating `b`'s dependencies as
`[a, b]` or as `[b, a]` yields the same drain-step result. -/
theorem c9_fold_order_irrelevant_check :
    List.Perm ["a", "b"] ["b", "a"] ∧
      GraphEstimator.drainStep GraphEstimator.c9wStore ⟨"p", [], ["a", "b"], 1⟩ =
        GraphEstimator.drainStep GraphEstimator.c9wStore ⟨"p", [], ["b", "a"], 1⟩ :=
  ⟨by decide, c9_fold_order_irrelevant GraphEstimator.c9wStore "p" ["a", "b"] ["b", "a"]
    ⟨some 1, none⟩ (by decide) (by decide) (by decide)⟩

namespace GraphEstimator

/-- If some dependency in the pending list has no row at all, the dependency
loop never completes: it either abandons (the missing row was reached) or
defers (an unscored row was reached first), and in the deferred case the
missing dependency has still not been marked as seen. -/
theorem processVisit_missing (store : Store) (d : PName) (hw : wfStore store = true)
    (hmiss : storeGet store d = none) :
    ∀ (tv : List PName) (acc : Rat) (seen : List PName), d ∈ tv → d ∉ seen →
      (∃ s a, processVisit store acc seen tv = .abandoned s a) ∨
      (∃ s a, processVisit store acc seen tv = .deferred s a ∧ d ∉ s) := by
  intro tv
  induction tv with
  | nil => intro acc seen hmem _; cases hmem
  | cons dep rest ih =>
    intro acc seen hmem hns
    cases hget : storeGet store dep with
    | none =>
      left; exact ⟨seen, acc, by simp [processVisit, hget]⟩
    | some e =>
      cases hsz : e.subgraph_size with
      | none =>
        right; exact ⟨seen, acc, by simp [processVisit, hget, hsz], hns⟩
      | some sz =>
        have hvcs : e.version_count.isSome = true :=
          wfStore_vc store hw dep e hget (by simp [hsz])
        obtain ⟨vc, hvc⟩ := Option.isSome_iff_exists.mp hvcs
        have hne : d ≠ dep := fun h => by rw [h, hget] at hmiss; cases hmiss
        have hmem2 : d ∈ rest := by
          rcases List.mem_cons.mp hmem with h | h
          · exact absurd h hne
          · exact h
        have hns2 : d ∉ seen ++ [dep] := by
          simp only [List.mem_append, List.mem_singleton]
          rintro (h | h)
          · exact hns h
          · exact hne h
        have := ih (acc * (sz * (vc : Rat))) (seen ++ [dep]) hmem2 hns2
        simpa [processVisit, hget, hsz, hvc] using this

end GraphEstimator

/-- Claim C6: processing a work item one of whose pending dependencies has no
record in the store never raises, never writes the store (so the subject's
`subgraph_size` stays as it was and no other work item is affected), and
either drops the item outright — the abandon branch, reached when the lookup
of the missing dependency comes back empty — or re-enqueues it still blocked
on that same missing dependency, so the item can never finalize while the
record stays absent.  The well-formedness hypothesis rules out the unrelated
`TypeError` branch on some other dependency. -/
theorem c6_missing_dep_never_finalizes (store : GraphEstimator.Store)
    (item : GraphEstimator.SubGraphEntity) (d : GraphEstimator.PName)
    (hw : GraphEstimator.wfStore store = true) (hmem : d ∈ item.to_visit)
    (hns : d ∉ item.subgraphs_seen) (hmiss : GraphEstimator.storeGet store d = none) :
    GraphEstimator.drainStep store item = some (store, none) ∨
      (∃ item1, GraphEstimator.drainStep store item = some (store, some item1) ∧
        item1.subgraph_name = item.subgraph_name ∧ d ∈ item1.to_visit ∧
        d ∉ item1.subgraphs_seen) := by
  rcases GraphEstimator.processVisit_missing store d hw hmiss item.to_visit
      item.subgraph_size item.subgraphs_seen hmem hns with ⟨s, a, h⟩ | ⟨s, a, h, hds⟩
  · left
    simp [GraphEstimator.drainStep, h]
  · right
    refine ⟨⟨item.subgraph_name, s,
      item.to_visit.filter (fun x => decide (x ∉ s)), a⟩, ?_, rfl, ?_, hds⟩
    · simp [GraphEstimator.drainStep, h]
    · simp only [List.mem_filter]
      exact ⟨hmem, by simpa using hds⟩

namespace GraphEstimator

/-- Store for the C6 witness: one well-formed row; `z` is absent. -/
def c6wStore : Store := [("a", ⟨some 2, some 2⟩)]

/-- Item for the C6 witness: subject `p` pending on the absent `z`. -/
def c6wItem : SubGraphEntity := ⟨"p", [], ["z"], 1⟩

end GraphEstimator

/-- Witness for C6 at a concrete input: the store is well-formed, `z` is in
the pending set, unseen, and absent from the store. -/
theorem c6_missing_dep_never_finalizes_check :
    GraphEstimator.wfStore GraphEstimator.c6wStore = true ∧
      (GraphEstimator.drainStep GraphEstimator.c6wStore GraphEstimator.c6wItem =
          some (GraphEstimator.c6wStore, none) ∨
        (∃ item1, GraphEstimator.drainStep GraphEstimator.c6wStore GraphEstimator.c6wItem =
            some (GraphEstimator.c6wStore, some item1) ∧
          item1.subgraph_name = GraphEstimator.c6wItem.subgraph_name ∧
          "z" ∈ item1.to_visit ∧ "z" ∉ item1.subgraphs_seen)) :=
  ⟨by decide, c6_missing_dep_never_finalizes GraphEstimator.c6wStore GraphEstimator.c6wItem
    "z" (by decide) (by decide) (by decide) (by decide)⟩

namespace GraphEstimator

/-- In a well-formed store the dependency loop never reaches the `TypeError`
branch. -/
theorem processVisit_wf_not_failed (store : Store) (hw : wfStore store = true) :
    ∀ (tv : List PName) (acc : Rat) (seen : List PName),
      processVisit store acc seen tv ≠ .failed := by
  intro tv
  induction tv with
  | nil => intro acc seen h; simp [processVisit] at h
  | cons dep rest ih =>
    intro acc seen
    cases hget : storeGet store dep with
    | none => simp [processVisit, hget]
    | some e =>
      cases hsz : e.subgraph_size with
      | none => simp [processVisit, hget, hsz]
      | some sz =>
        have hvcs : e.version_count.isSome = true :=
          wfStore_vc store hw dep e hget (by simp [hsz])
        obtain ⟨vc, hvc⟩ := Option.isSome_iff_exists.mp hvcs
        simp only [processVisit, hget, hsz, hvc]
        exact ih _ _

/-- Store for the C10 failing branch: `p` has `subgraph_size` set but no
`version_count`. -/
def c10badStore : Store := [("p", ⟨none, some 2⟩), ("q", ⟨some 1, none⟩)]

/-- Item for the C10 failing branch: `q` pending on the ill-formed `p`. -/
def c10badItem : SubGraphEntity := ⟨"q", [], ["p"], 1⟩

end GraphEstimator

/-- Claim C10: the fold of the drain loop is total exactly under the
precondition that every record with `subgraph_size` set also has
`version_count` set.  First conjunct: for a well-formed store no drain step
raises (the `TypeError` branch is unreachable).  Second conjunct: on a store
violating the precondition the exception propagates out of the drain loop. -/
theorem c10_fold_total_under_wf :
    (∀ (store : GraphEstimator.Store) (item : GraphEstimator.SubGraphEntity),
        GraphEstimator.wfStore store = true →
        GraphEstimator.drainStep store item ≠ none) ∧
      GraphEstimator.drain 5 GraphEstimator.c10badStore [GraphEstimator.c10badItem] = none := by
  constructor
  · intro store item hw
    have h := GraphEstimator.processVisit_wf_not_failed store hw item.to_visit
      item.subgraph_size item.subgraphs_seen
    cases hp : GraphEstimator.processVisit store item.subgraph_size item.subgraphs_seen
        item.to_visit with
    | failed => exact absurd hp h
    | abandoned s a => simp [GraphEstimator.drainStep, hp]
    | deferred s a => simp [GraphEstimator.drainStep, hp]
    | completed s a =>
      cases hq : GraphEstimator.storeGet store item.subgraph_name <;>
        simp [GraphEstimator.drainStep, hp, hq]
  · decide

namespace GraphEstimator

/-- Store for the C10 witness: a single fully-populated row. -/
def c10wStore : Store := [("p", ⟨some 2, some 2⟩)]

/-- Item for the C10 witness. -/
def c10wItem : SubGraphEntity := ⟨"p", [], ["p"], 1⟩

end GraphEstimator

/-- Witness for C10's universal conjunct at a concrete input: a well-formed
store, on which the drain step does not raise. -/
theorem c10_fold_total_under_wf_check :
    GraphEstimator.wfStore GraphEstimator.c10wStore = true ∧
      GraphEstimator.drainStep GraphEstimator.c10wStore GraphEstimator.c10wItem ≠ none :=
  ⟨by decide, c10_fold_total_under_wf.1 GraphEstimator.c10wStore GraphEstimator.c10wItem
    (by decide)⟩

namespace GraphEstimator

/-- C8 scenario: `c` depends on `d` and `d` depends on `c`. -/
def c8gs : GraphSource := ⟨["c", "d"], fun p => if p = "c" then ["d"] else ["c"]⟩

/-- Records for the cycle members, both unscored. -/
def c8store : Store := [("c", ⟨some 2, none⟩), ("d", ⟨some 3, none⟩)]

/-- The work item for `c` as seeded (it is enqueued twice). -/
def c8itemC : SubGraphEntity := ⟨"c", [], ["d"], 1⟩

/-- The work item for `d` as seeded (it is enqueued twice). -/
def c8itemD : SubGraphEntity := ⟨"d", [], ["c"], 1⟩

/-- Any queue of cycle items circulates: after any number of drain steps the
store is untouched, no exception occurred, and the queue still consists of
the same cycle items (each popped item is re-enqueued unchanged, because its
single pending dependency is present but unscored). -/
theorem c8_drain_cycles : ∀ (fuel : Nat) (q : List SubGraphEntity),
    (∀ i ∈ q, i = c8itemC ∨ i = c8itemD) → q ≠ [] →
    ∃ q1, drain fuel c8store q = some (c8store, q1) ∧
      (∀ i ∈ q1, i = c8itemC ∨ i = c8itemD) ∧ q1 ≠ [] := by
  intro fuel
  induction fuel with
  | zero =>
    intro q hq hne
    cases q with
    | nil => exact absurd rfl hne
    | cons i rest => exact ⟨i :: rest, rfl, hq, hne⟩
  | succ n ih =>
    intro q hq hne
    cases q with
    | nil => exact absurd rfl hne
    | cons i rest =>
      have hstep : drainStep c8store i = some (c8store, some i) := by
        rcases hq i (List.mem_cons_self i rest) with h | h <;> subst h <;> decide
      have hq2 : ∀ j ∈ rest ++ [i], j = c8itemC ∨ j = c8itemD := by
        intro j hj
        rcases List.mem_append.mp hj with h | h
        · exact hq j (List.mem_cons_of_mem _ h)
        · rw [List.mem_singleton.mp h]
          exact hq i (List.mem_cons_self i rest)
      obtain ⟨q1, h1, h2, h3⟩ := ih (rest ++ [i]) hq2 (by simp)
      refine ⟨q1, ?_, h2, h3⟩
      simp only [drain, hstep]
      exact h1

end GraphEstimator

/-- Claim C8: on the two-package cycle (`c` depends on `d`, `d` on `c`, both
records present and unscored) the engine run with any amount of fuel — i.e.
after any number of drain-loop iterations — has raised no exception, still
has a non-empty queue (the items are re-enqueued forever), and has never
written either `subgraph_size`: the returned store is the seed store itself,
in which both sizes are unset. -/
theorem c8_cycle_no_crash_no_progress : ∀ (fuel : Nat),
    ∃ q1, GraphEstimator.fillGraphScore fuel GraphEstimator.c8gs GraphEstimator.c8store =
        some (GraphEstimator.c8store, q1) ∧ q1 ≠ [] ∧
      GraphEstimator.getSize GraphEstimator.c8store "c" = none ∧
      GraphEstimator.getSize GraphEstimator.c8store "d" = none := by
  intro fuel
  have hseed : GraphEstimator.seed GraphEstimator.c8gs GraphEstimator.c8store =
      (GraphEstimator.c8store,
        [GraphEstimator.c8itemC, GraphEstimator.c8itemC,
         GraphEstimator.c8itemD, GraphEstimator.c8itemD]) := by decide
  obtain ⟨q1, h1, _, hne⟩ := GraphEstimator.c8_drain_cycles fuel
    [GraphEstimator.c8itemC, GraphEstimator.c8itemC,
     GraphEstimator.c8itemD, GraphEstimator.c8itemD] (by decide) (by decide)
  refine ⟨q1, ?_, hne, by decide, by decide⟩
  have hfill : GraphEstimator.fillGraphScore fuel GraphEstimator.c8gs GraphEstimator.c8store =
      GraphEstimator.drain fuel GraphEstimator.c8store
        [GraphEstimator.c8itemC, GraphEstimator.c8itemC,
         GraphEstimator.c8itemD, GraphEstimator.c8itemD] := by
    simp only [GraphEstimator.fillGraphScore, hseed]
  rw [hfill]
  exact h1
